import Mathlib

/-!
Verification development for the client-side cache + synchronization core of a
browser-based code-review UI.  The Lean definitions below are shallow embeddings
of the TypeScript sources:

* `ReviewService` (services/reviewService.ts): HTTP client wrapper with retry,
  request deduplication, cache keys and cache invalidation, and the
  `transformReview` / `transformComment` response normalizers.
* `ErrorHandler` (services/errorHandler.ts): HTTP status to error-code mapping.
* `CacheManager` (services/cacheManager.ts): two-layer (memory + IndexedDB)
  TTL cache.
* `useReviewStore` (store/reviewStore.ts): the zustand global store actions.
* `useReviewSync` (hooks/useReviewSync.ts): the polling reconciliation loop.
* `ReviewContext` (contexts/ReviewContext.tsx): the alternate state container
  (its `updateComments` helper is byte-identical to that of the store).

Modelling conventions: machine time (`Date.now()`) is an explicit `Nat`
parameter `now`; JavaScript objects used as string-keyed maps become
association lists `List (String × V)`; a JavaScript value that may be
`undefined` becomes an `Option`; promise-based control flow becomes explicit
state passing, with the eventual settlement of a promise modelled as an
explicit step.  `estimateSize` (JSON + Blob based in the source) is an
abstract size-function parameter.
-/

set_option autoImplicit false

namespace ReviewPlatform

/-- Association-list lookup, modelling `Map.prototype.get` / `Map.has` and the
IndexedDB `get` on a keyed object store. -/
def lookupKey {V : Type} (entries : List (String × V)) (key : String) : Option V :=
  (entries.find? (fun e => e.1 == key)).map (fun e => e.2)

/-- Association-list removal, modelling `Map.prototype.delete` and IndexedDB
`delete`. -/
def eraseKey {V : Type} (entries : List (String × V)) (key : String) : List (String × V) :=
  entries.filter (fun e => !(e.1 == key))

/-- Association-list overwrite, modelling `Map.prototype.set` and IndexedDB
`put` (replaces any previous entry for the key). -/
def putKey {V : Type} (entries : List (String × V)) (key : String) (v : V) :
    List (String × V) :=
  (key, v) :: eraseKey entries key

/-- A filter object (`FilterOptions`) is modelled as the ordered list of its
(property name, serialized property value) pairs; the order of the list is the
JavaScript property insertion order, which `JSON.stringify` follows.  Property
values are kept in already-serialized form since no claim inspects them. -/
abbrev Filters := List (String × String)

/-- Model of `JSON.stringify` applied to a filter object: properties are
rendered in insertion order.  (`\x7b`/`\x7d` are the brace characters.) -/
def jsonStringify (f : Filters) : String :=
  "\x7b" ++ String.intercalate "," (f.map (fun kv => "\"" ++ kv.1 ++ "\":" ++ kv.2)) ++ "\x7d"

/-- Model of the template-literal fragment `${JSON.stringify(filters)}` where
`filters` may be `undefined` (an omitted optional argument): JavaScript
renders `undefined` as the string `undefined`. -/
def jsonStringifyOpt : Option Filters → String
  | none => "undefined"
  | some f => jsonStringify f

namespace ReviewService

/-- Cache key used by `getReviews`: `reviews:${JSON.stringify(filters)}`
(reviewService.ts line 142). -/
def reviewsListCacheKey (filters : Option Filters) : String :=
  "reviews:" ++ jsonStringifyOpt filters

/-- Cache key used by `getReview` / invalidated by `updateReview`:
`review:${id}`. -/
def reviewCacheKey (id : String) : String :=
  "review:" ++ id

/-- Deduplication key used by `getReviews`:
`getReviews:${JSON.stringify(filters)}` (reviewService.ts line 148). -/
def getReviewsRequestKey (filters : Option Filters) : String :=
  "getReviews:" ++ jsonStringifyOpt filters

/-- Interceptor-level cache key `getCacheKey(config)` (reviewService.ts lines
104-108): `if (!config.url) return null` — a missing url, or the empty string
(the only falsy string), yields no key; otherwise the key is
`${config.method}:${config.url}` followed by `:${JSON.stringify(config.params)}`
when params are present (any present object is truthy, even `{}`). -/
def getCacheKey (method : String) (url : Option String) (params : Option Filters) :
    Option String :=
  match url with
  | none => none
  | some u =>
      if u == "" then none
      else
        some (method ++ ":" ++ u ++
          (match params with
           | none => ""
           | some p => ":" ++ jsonStringify p))

/-- The literal key `reviews:{}` that `createReview`, `updateReview` and
`deleteReview` delete (reviewService.ts lines 190, 199, 206). -/
def fixedListKey : String := "reviews:" ++ "\x7b\x7d"

end ReviewService

namespace CacheManager

/-- A stored cache entry (`CacheEntry<T>` in types.ts, as produced by
`CacheManager.set`). -/
structure CacheEntry (V : Type) where
  data : V
  timestamp : Nat
  expiresAt : Nat
  version : Nat
deriving Repr, DecidableEq

/-- State of the `CacheManager` singleton.  `memoryCache` and
`currentMemorySize` are the source fields of the same names; `db` models the
contents of the IndexedDB object store (keyed records holding the entry);
`dbAvailable` models whether `init` succeeded (`this.db !== null`).
`currentMemorySize` is an `Int` because the subtractions in the source can in
principle drive the JavaScript number below zero. -/
structure CacheState (V : Type) where
  memoryCache : List (String × CacheEntry V)
  db : List (String × CacheEntry V)
  currentMemorySize : Int
  dbAvailable : Bool
deriving Repr, DecidableEq

/-- `defaultTTL` (cacheManager.ts line 17). -/
def defaultTTL : Nat := 300000

/-- `maxMemorySize = 50 * 1024 * 1024` (cacheManager.ts line 15). -/
def maxMemorySize : Nat := 50 * 1024 * 1024

/-- A fresh cache as after construction plus a successful `init`. -/
def initState (V : Type) : CacheState V :=
  { memoryCache := [], db := [], currentMemorySize := 0, dbAvailable := true }

variable {V : Type}

/-- `evictLRU` (cacheManager.ts lines 154-167): sort memory entries by ascending
`timestamp`, evict the oldest `Math.floor(length * 0.2)` of them from both
layers (db layer only when available), adjusting `currentMemorySize`.
`Math.floor(n * 0.2)` is modelled as exact `n / 5`. -/
def evictLRU (est : CacheEntry V → Nat) (s : CacheState V) : CacheState V :=
  let entries := s.memoryCache.mergeSort (fun a b => a.2.timestamp ≤ b.2.timestamp)
  let toEvict := entries.length / 5
  (entries.take toEvict).foldl
    (fun st kv =>
      { st with
        memoryCache := eraseKey st.memoryCache kv.1
        currentMemorySize := st.currentMemorySize - est kv.2
        db := if st.dbAvailable then eraseKey st.db kv.1 else st.db })
    s

/-- `set` (cacheManager.ts lines 42-79): build the entry with
`expiresAt = now + ttl`, subtract the size of any overwritten entry, evict when
the byte budget would be exceeded, store in memory, and mirror to the durable
layer when it is available. -/
def set (est : CacheEntry V → Nat) (s : CacheState V) (key : String) (data : V)
    (ttl? : Option Nat) (version? : Option Nat) (now : Nat) : CacheState V :=
  let ttl := ttl?.getD defaultTTL
  let timestamp := now
  let expiresAt := timestamp + ttl
  let entry : CacheEntry V :=
    { data := data, timestamp := timestamp, expiresAt := expiresAt
      version := version?.getD 1 }
  let size := est entry
  let s :=
    match lookupKey s.memoryCache key with
    | some existingEntry =>
        { s with currentMemorySize := s.currentMemorySize - est existingEntry }
    | none => s
  let s :=
    if s.currentMemorySize + size > (maxMemorySize : Int) then evictLRU est s else s
  let s :=
    { s with
      memoryCache := putKey s.memoryCache key entry
      currentMemorySize := s.currentMemorySize + size }
  if s.dbAvailable then { s with db := putKey s.db key entry } else s

/-- Synchronous `get` (cacheManager.ts lines 81-95): memory layer only; an
entry past its `expiresAt` is deleted from the memory layer (only) and treated
as absent. -/
def get (est : CacheEntry V → Nat) (s : CacheState V) (key : String) (now : Nat) :
    Option V × CacheState V :=
  match lookupKey s.memoryCache key with
  | none => (none, s)
  | some entry =>
      if now > entry.expiresAt then
        (none,
         { s with
           memoryCache := eraseKey s.memoryCache key
           currentMemorySize := s.currentMemorySize - est entry })
      else (some entry.data, s)

/-- `getAsync` (cacheManager.ts lines 97-127): memory layer first (an expired
memory entry is evicted from memory and the lookup falls through); then the
durable layer when available (a live durable hit re-populates memory — without
any `currentMemorySize` adjustment, as in the source — and an expired durable
entry is deleted from the durable layer). -/
def getAsync (est : CacheEntry V → Nat) (s : CacheState V) (key : String) (now : Nat) :
    Option V × CacheState V :=
  let afterMemory : Option V × CacheState V :=
    match lookupKey s.memoryCache key with
    | some memoryEntry =>
        if now > memoryEntry.expiresAt then
          (none,
           { s with
             memoryCache := eraseKey s.memoryCache key
             currentMemorySize := s.currentMemorySize - est memoryEntry })
        else (some memoryEntry.data, s)
    | none => (none, s)
  match afterMemory with
  | (some v, s) => (some v, s)
  | (none, s) =>
      if s.dbAvailable then
        match lookupKey s.db key with
        | some stored =>
            if now ≤ stored.expiresAt then
              (some stored.data, { s with memoryCache := putKey s.memoryCache key stored })
            else (none, { s with db := eraseKey s.db key })
        | none => (none, s)
      else (none, s)

/-- `delete` (cacheManager.ts lines 129-141): remove from the memory layer
(adjusting `currentMemorySize` when present) and from the durable layer when
available; safe on an absent key. -/
def delete (est : CacheEntry V → Nat) (s : CacheState V) (key : String) : CacheState V :=
  let s :=
    match lookupKey s.memoryCache key with
    | some entry =>
        { s with
          currentMemorySize := s.currentMemorySize - est entry
          memoryCache := eraseKey s.memoryCache key }
    | none => s
  if s.dbAvailable then { s with db := eraseKey s.db key } else s

end CacheManager

namespace ReviewService

variable {V : Type}

/-- `getReviews(filters)` (reviewService.ts lines 141-156), as a transition on
the cache state: look up `reviews:${JSON.stringify(filters)}` via
`cacheManager.getAsync`; on a hit return the cached value with no network
fetch; on a miss perform the (deduplicated) network fetch — whose transformed
result is the parameter `fetched` — write it through with ttl 300000, and
return it.  The boolean result records whether a network fetch was triggered. -/
def getReviews (est : CacheManager.CacheEntry V → Nat) (s : CacheManager.CacheState V)
    (filters : Option Filters) (fetched : V) (now : Nat) :
    V × Bool × CacheManager.CacheState V :=
  let cacheKey := reviewsListCacheKey filters
  match CacheManager.getAsync est s cacheKey now with
  | (some cached, s) => (cached, false, s)
  | (none, s) =>
      (fetched, true, CacheManager.set est s cacheKey fetched (some 300000) none now)

/-- `getReview(id)` (reviewService.ts lines 158-169): same shape as
`getReviews` with key `review:${id}` and ttl 600000. -/
def getReview (est : CacheManager.CacheEntry V → Nat) (s : CacheManager.CacheState V)
    (id : String) (fetched : V) (now : Nat) :
    V × Bool × CacheManager.CacheState V :=
  let cacheKey := reviewCacheKey id
  match CacheManager.getAsync est s cacheKey now with
  | (some cached, s) => (cached, false, s)
  | (none, s) =>
      (fetched, true, CacheManager.set est s cacheKey fetched (some 600000) none now)

/-- Cache effect of a successful `updateReview(id, updates)` (reviewService.ts
lines 194-201): after the PATCH succeeds, delete exactly the two keys
`review:${id}` and the literal `reviews:{}`. -/
def updateReview (est : CacheManager.CacheEntry V → Nat) (s : CacheManager.CacheState V)
    (id : String) : CacheManager.CacheState V :=
  let s := CacheManager.delete est s (reviewCacheKey id)
  CacheManager.delete est s fixedListKey

/-- `retryConfig.maxRetries` (reviewService.ts line 11). -/
def maxRetries : Nat := 3

/-- `retryConfig.retryDelay` (reviewService.ts line 12). -/
def retryDelay : Nat := 1000

/-- `retryConfig.retryableStatuses` (reviewService.ts line 13). -/
def retryableStatuses : List Nat := [408, 429, 500, 502, 503, 504]

/-- The per-request mutable bookkeeping the source keeps on the axios config
object: `_retry` (set by `retryRequest` before its first re-issue) and
`retryCount` (`(config as any).retryCount || 0`). -/
structure ReqConfig where
  retryFlag : Bool
  retryCount : Nat
deriving Repr, DecidableEq

/-- A fresh request config: neither `_retry` nor `retryCount` is set. -/
def freshConfig : ReqConfig := { retryFlag := false, retryCount := 0 }

/-- `shouldRetry(error, config)` (reviewService.ts lines 72-83): false when the
config is absent or already carries `_retry`; false when the response has no
(truthy) status; otherwise whether the status is in `retryableStatuses`. -/
def shouldRetry (status? : Option Nat) (config? : Option ReqConfig) : Bool :=
  match config? with
  | none => false
  | some config =>
      if config.retryFlag then false
      else
        match status? with
        | none => false
        | some status =>
            if status == 0 then false else retryableStatuses.contains status

/-- Error-code classification performed by `errorHandler.handleAxiosError` for
a response that does carry an HTTP status (errorHandler.ts lines 313-357). -/
def errorCodeForStatus (status : Nat) : String :=
  if status == 400 then "VALIDATION_ERROR"
  else if status == 401 then "UNAUTHORIZED"
  else if status == 403 then "FORBIDDEN"
  else if status == 404 then "NOT_FOUND"
  else if status == 409 then "CONFLICT"
  else if status == 422 then "VALIDATION_ERROR"
  else if status == 429 then "RATE_LIMIT"
  else if status == 500 then "SERVER_ERROR"
  else if status == 502 || status == 503 || status == 504 then "SERVICE_UNAVAILABLE"
  else "HTTP_" ++ toString status

/-- How one request chain finally rejects. -/
inductive RequestOutcome where
  /-- Rejected with the structured `ErrorDetails` built by
  `errorHandler.handle` in the response interceptor. -/
  | handled (code : String)
  /-- Rejected with the raw axios error re-thrown inside `retryRequest` when
  `retryCount >= maxRetries`. -/
  | rawAxiosError (status : Nat)
deriving Repr, DecidableEq

/-- One request attempt chain against a server that answers every attempt with
HTTP status `status`, following the response interceptor (reviewService.ts
lines 59-68), `shouldRetry` (72-83) and `retryRequest` (85-102).  Returns the
total number of network attempts made, the final outcome, and the list of
backoff delays slept (each `retryDelay * 2 ^ retryCount`).  `fuel` bounds the
recursion; any fuel above the retry cap is enough. -/
def runAlwaysFailing (status : Nat) :
    Nat → ReqConfig → Nat → List Nat → Option (Nat × RequestOutcome × List Nat)
  | 0, _, _, _ => none
  | fuel + 1, config, attempts, delays =>
      let attempts := attempts + 1
      if shouldRetry (some status) (some config) then
        let config := { config with retryFlag := true }
        let retryCount := config.retryCount
        if retryCount ≥ maxRetries then
          some (attempts, RequestOutcome.rawAxiosError status, delays)
        else
          let config := { config with retryCount := retryCount + 1 }
          let delay := retryDelay * 2 ^ retryCount
          runAlwaysFailing status fuel config attempts (delays ++ [delay])
      else some (attempts, RequestOutcome.handled (errorCodeForStatus status), delays)

/-- State of the in-flight request deduplication map
(`requestQueue: Map<string, Promise<AxiosResponse>>`, reviewService.ts line 9).
Promises are modelled by identity: `requestQueue` maps a key to the id of the
shared pending promise, `networkCalls` counts invocations of `requestFn` (one
network request each), and `nextPromiseId` supplies fresh promise ids.  Two
callers holding the same promise id await the same promise and therefore
receive the same settled result. -/
structure DedupState where
  requestQueue : List (String × Nat)
  networkCalls : Nat
  nextPromiseId : Nat
deriving Repr, DecidableEq

/-- `requestWithDeduplication(key, requestFn)` (reviewService.ts lines
125-139): a queued key returns the stored promise untouched; otherwise
`requestFn()` starts one network request, a `.finally` cleanup is attached, and
the promise is stored under the key.  Returns the promise (id) handed to the
caller. -/
def requestWithDeduplication (s : DedupState) (key : String) : Nat × DedupState :=
  match lookupKey s.requestQueue key with
  | some promiseId => (promiseId, s)
  | none =>
      let promiseId := s.nextPromiseId
      (promiseId,
       { requestQueue := putKey s.requestQueue key promiseId
         networkCalls := s.networkCalls + 1
         nextPromiseId := promiseId + 1 })

/-- Settlement of the shared promise stored under `key`: the `.finally`
callback runs whether the promise fulfilled (`success = true`) or rejected
(`success = false`), and deletes the key from the queue either way. -/
def settle (s : DedupState) (key : String) (success : Bool) : DedupState :=
  let _ := success
  { s with requestQueue := eraseKey s.requestQueue key }

end ReviewService

/-- The recursive comment tree (`Comment` in types.ts), restricted to the
fields the comment logic of store and context reads: `id`, `content`,
`resolved` and the recursive `replies`. -/
inductive Comment : Type where
  | mk (id : String) (content : String) (resolved : Bool) (replies : List Comment) : Comment
deriving Repr

def Comment.id : Comment → String
  | .mk i _ _ _ => i

def Comment.content : Comment → String
  | .mk _ c _ _ => c

def Comment.resolved : Comment → Bool
  | .mk _ _ r _ => r

def Comment.replies : Comment → List Comment
  | .mk _ _ _ rs => rs

/-- A review (`Review` in types.ts), restricted to the fields the store logic
reads: `id`, `title`, `updatedAt`, `files` (file contents stand in for
`ReviewFile` records) and the comment tree. -/
structure Review where
  id : String
  title : String
  updatedAt : Nat
  files : List String
  comments : List Comment
deriving Repr

/-- The recursive `updateComments` helper created inside the zustand store
`updateComment` action action (reviewStore.ts lines 223-233) and, identically,
inside the context `updateComment` (ReviewContext.tsx lines 259-269): map over the
comment list; a comment whose id matches is replaced by `updatedComment`; a
comment with a non-empty reply list is rebuilt as a fresh object with its
replies recursively processed; any other comment is returned as-is (the same
object reference). -/
def updateComments (commentId : String) (updatedComment : Comment) :
    List Comment → List Comment
  | [] => []
  | c :: cs =>
      (if c.id == commentId then updatedComment
       else if c.replies.length > 0 then
         Comment.mk c.id c.content c.resolved (updateComments commentId updatedComment c.replies)
       else c) :: updateComments commentId updatedComment cs
decreasing_by
  all_goals cases c
  all_goals simp [Comment.replies]
  all_goals omega

/-- Instrumented form of `updateComments` that additionally returns, in visit
order, the ids of the nodes for which the source allocates a fresh object:
the matched comment (replaced by `updatedComment`) and every comment rebuilt
through the `{ ...c, replies: updateComments(c.replies) }` branch.  A node in
the result whose id is not in this trace is the very object (reference) from
the input tree. -/
def updateCommentsTraced (commentId : String) (updatedComment : Comment) :
    List Comment → List Comment × List String
  | [] => ([], [])
  | c :: cs =>
      match updateCommentsTraced commentId updatedComment cs with
      | (restList, restIds) =>
          if c.id == commentId then (updatedComment :: restList, c.id :: restIds)
          else if c.replies.length > 0 then
            match updateCommentsTraced commentId updatedComment c.replies with
            | (innerList, innerIds) =>
                (Comment.mk c.id c.content c.resolved innerList :: restList,
                 c.id :: (innerIds ++ restIds))
          else (c :: restList, restIds)
decreasing_by
  all_goals cases c
  all_goals simp [Comment.replies]
  all_goals omega

/-- The ids of the freshly allocated (non-shared) nodes of an
`updateComments` run. -/
def rebuiltIds (commentId : String) (updatedComment : Comment) (cs : List Comment) :
    List String :=
  (updateCommentsTraced commentId updatedComment cs).2

/-- The comments `updateComments` visits: every node of the forest, except
that it does not descend below a comment whose id matches (the old subtree of
that node is discarded wholesale, neither shared nor rebuilt). -/
def visitedComments (commentId : String) : List Comment → List Comment
  | [] => []
  | c :: cs =>
      (if c.id == commentId then [c] else c :: visitedComments commentId c.replies) ++
        visitedComments commentId cs
decreasing_by
  all_goals cases c
  all_goals simp [Comment.replies]
  all_goals omega

/-- Whether a comment with the given id occurs anywhere in the forest. -/
def containsComment (commentId : String) : List Comment → Bool
  | [] => false
  | c :: cs =>
      c.id == commentId || containsComment commentId c.replies ||
        containsComment commentId cs
decreasing_by
  all_goals cases c
  all_goals simp [Comment.replies]
  all_goals omega

/-- Formalization of the notion, used by the claim, of rebuilding only "the path from the
root to c": the ids of the ancestors of the comment with id `commentId`
(itself included), taking the first occurrence. -/
def pathToComment (commentId : String) : List Comment → List String
  | [] => []
  | c :: cs =>
      if c.id == commentId then [c.id]
      else if containsComment commentId c.replies then
        c.id :: pathToComment commentId c.replies
      else pathToComment commentId cs
decreasing_by
  all_goals cases c
  all_goals simp [Comment.replies]
  all_goals omega

/-- The review produced by the store / context `updateComment` success path
for the review that matched: `{ ...updatedReview, comments: updateComments(updatedReview.comments) }`
(reviewStore.ts lines 237-240, ReviewContext.tsx lines 271-275).  All other
fields — in particular `files` — are carried over by reference. -/
def applyUpdateComment (r : Review) (commentId : String) (updatedComment : Comment) :
    Review :=
  { r with comments := updateComments commentId updatedComment r.comments }

namespace ReviewStore

/-- The normalized error record a failed store action writes
(`ErrorDetails` restricted to the fields the actions set). -/
structure ErrorInfo where
  code : String
  message : String
deriving Repr, DecidableEq

/-- The state slice of `useReviewStore` (reviewStore.ts lines 7-15, initial
values lines 34-42). -/
structure StoreState where
  reviews : List Review
  selectedReview : Option Review
  filters : Filters
  loading : Bool
  error : Option ErrorInfo
  lastFetchTime : Option Nat
  cacheVersion : Nat
deriving Repr

/-- Outcome of an awaited service call inside a store action. -/
inductive CallOutcome (α : Type) where
  | ok (value : α)
  | err (message : String)
deriving Repr

/-- `fetchReviews(options, force)` (reviewStore.ts lines 120-157) as a state
transition.  `cached` is the value `cacheManager.getAsync(cacheKey)` resolves
to; `result` is how `reviewService.getReviews` settles on the miss path;
`filtersRefEqual` models the reference equality test
`currentState.filters === (options || state.filters)` guarding the success
write (it is true in particular whenever `options` is undefined and no
concurrent action replaced `filters`); `now` is `Date.now()` at the success
write.  Every `set` call merges the given fields into the state, as zustand
does. -/
def fetchReviews (s : StoreState) (cached : Option (List Review)) (force : Bool)
    (result : CallOutcome (List Review)) (filtersRefEqual : Bool) (now : Nat) :
    StoreState :=
  if force = false ∧ cached.isSome then
    { s with reviews := cached.getD [], loading := false }
  else
    let s1 := { s with loading := true, error := none }
    match result with
    | .ok reviews =>
        if filtersRefEqual then
          { s1 with reviews := reviews, loading := false, lastFetchTime := some now }
        else s1
    | .err message =>
        { s1 with
          error := some { code := "FETCH_REVIEWS_ERROR", message := message }
          loading := false }

/-- `fetchReview(id, force)` (reviewStore.ts lines 159-193) as a state
transition, returning the result of the action alongside the new state. -/
def fetchReview (s : StoreState) (cached : Option Review) (force : Bool)
    (result : CallOutcome Review) : Option Review × StoreState :=
  if force = false ∧ cached.isSome then
    (cached, { s with selectedReview := cached, loading := false })
  else
    let s1 := { s with loading := true, error := none }
    match result with
    | .ok review =>
        (some review, { s1 with selectedReview := some review, loading := false })
    | .err message =>
        (none,
         { s1 with
           error := some { code := "FETCH_REVIEW_ERROR", message := message }
           loading := false })

/-- `updateReview(id, updates)` (reviewStore.ts lines 70-98) as a state
transition.  `result` is how `reviewService.updateReview` settles; on success
the matching list element and a matching `selectedReview` are replaced; on
failure a single `set({ error })` merge runs (and the error is re-thrown to the
caller). -/
def updateReview (s : StoreState) (id : String) (result : CallOutcome Review) :
    StoreState :=
  match result with
  | .ok updatedReview =>
      let newReviews := s.reviews.map (fun r => if r.id == id then updatedReview else r)
      let newSelected :=
        match s.selectedReview with
        | some sel => if sel.id == id then some updatedReview else some sel
        | none => none
      { s with reviews := newReviews, selectedReview := newSelected }
  | .err message =>
      { s with error := some { code := "UPDATE_REVIEW_ERROR", message := message } }

/-- Success path of `addComment(reviewId, comment)` (reviewStore.ts lines
195-217): when a review with the id is found, append the new comment to it,
replace the matching list element and a matching `selectedReview`; when no
review matches, the updater returns the state unchanged. -/
def applyAddComment (s : StoreState) (reviewId : String) (newComment : Comment) :
    StoreState :=
  match s.reviews.find? (fun r => r.id == reviewId) with
  | some updatedReview =>
      let newReview := { updatedReview with comments := updatedReview.comments ++ [newComment] }
      { s with
        reviews := s.reviews.map (fun r => if r.id == reviewId then newReview else r)
        selectedReview :=
          match s.selectedReview with
          | some sel => if sel.id == reviewId then some newReview else some sel
          | none => none }
  | none => s

/-- Success path of `updateComment(reviewId, commentId, updates)`
(reviewStore.ts lines 219-253): like `applyAddComment` with the comment tree
rewritten by `updateComments`. -/
def applyUpdateCommentStore (s : StoreState) (reviewId commentId : String)
    (updatedComment : Comment) : StoreState :=
  match s.reviews.find? (fun r => r.id == reviewId) with
  | some updatedReview =>
      let newReview := applyUpdateComment updatedReview commentId updatedComment
      { s with
        reviews := s.reviews.map (fun r => if r.id == reviewId then newReview else r)
        selectedReview :=
          match s.selectedReview with
          | some sel => if sel.id == reviewId then some newReview else some sel
          | none => none }
  | none => s

end ReviewStore

namespace ReviewSync

/-- What one tick of the `useReviewSync` interval (useReviewSync.ts lines
285-289) compares: it calls `context.fetchReviews()` iff
`store.reviews.length !== context.reviews.length`.  Only `length` is read;
review contents are irrelevant to the trigger. -/
def syncTickTriggersFetch (storeReviews contextReviews : List Review) : Bool :=
  storeReviews.length != contextReviews.length

/-- Content identity of two review collections in the sense of the claim: same
sequence of (id, updatedAt) pairs. -/
def sameContent (as bs : List Review) : Bool :=
  as.map (fun r => (r.id, r.updatedAt)) == bs.map (fun r => (r.id, r.updatedAt))

end ReviewSync

namespace Transform

/-- A comment as delivered by the API (`data` in `transformComment`): `replies`
and `reactions` may be absent (`undefined`).  The transformed output lives in
the same type, so that the presence of the collections is a provable property
of `transformComment` rather than a typing artifact. -/
inductive RawComment : Type where
  | mk (id : String) (content : String) (replies : Option (List RawComment))
      (reactions : Option (List String)) : RawComment
deriving Repr

def RawComment.replies : RawComment → Option (List RawComment)
  | .mk _ _ rs _ => rs

def RawComment.reactions : RawComment → Option (List String)
  | .mk _ _ _ re => re

/-- A review as delivered by the API (`data` in `transformReview`): `comments`
and `files` may be absent. -/
structure RawReview where
  id : String
  title : String
  comments : Option (List RawComment)
  files : Option (List String)
deriving Repr

/-- Models `Array.prototype.map` with a callback that may throw: elements are
processed left to right and the first thrown error aborts the whole map. -/
def jsArrayMap {A : Type} (f : A → Except String A) : List A → Except String (List A)
  | [] => .ok []
  | a :: rest =>
      match f a with
      | .error e => .error e
      | .ok b =>
          match jsArrayMap f rest with
          | .error e => .error e
          | .ok bs => .ok (b :: bs)

/-- The exception raised when a class method that reads
`this.transformComment` runs with `this === undefined`.  The transform methods
are ordinary class methods; wherever the source passes one UNBOUND into
`map`, the strict-mode callback executes with `this` undefined and the
property access throws. -/
def typeErrorUndefinedThis : String :=
  "TypeError: cannot read properties of undefined"

/-- `transformComment(data)` as it actually runs when passed unbound into
`map` (reviewService.ts lines 258 and 268): with `this` undefined, a nullish
`data.replies` short-circuits the optional chain in
`data.replies?.map(this.transformComment)` — the argument
`this.transformComment` is never evaluated — and the comment transforms with
`replies` defaulted to `[]` and `reactions` to `data.reactions || []`; but
when `data.replies` is a present array (even an empty one) the argument is
evaluated before `map` runs and the `this.transformComment` access throws. -/
def transformCommentUnbound : RawComment → Except String RawComment
  | .mk i c none reactions => .ok (.mk i c (some []) (some (reactions.getD [])))
  | .mk _ _ (some _) _ => .error typeErrorUndefinedThis

/-- `transformComment(data)` invoked as a method — bound `this` — as in
`addComment` and `updateComment` (reviewService.ts lines 214, 229): the
`this.transformComment` reference itself evaluates fine, but it is passed
UNBOUND into `map`, so each element of a present `replies` array is processed
by `transformCommentUnbound` (and the first reply that itself carries a
present `replies` array throws). -/
def transformComment (c : RawComment) : Except String RawComment :=
  match c with
  | .mk i co none reactions => .ok (.mk i co (some []) (some (reactions.getD [])))
  | .mk i co (some rs) reactions =>
      match jsArrayMap transformCommentUnbound rs with
      | .error e => .error e
      | .ok l => .ok (.mk i co (some l) (some (reactions.getD [])))

/-- `transformReview(data)` invoked as a method — bound `this` — as in
`getReview` (reviewService.ts line 166), restricted to the collection fields
the claim is about: `files: data.files || []`, and
`comments: data.comments?.map(this.transformComment) || []`, which passes the
unbound method into `map` (so each top-level comment goes through
`transformCommentUnbound`). -/
def transformReview (r : RawReview) : Except String RawReview :=
  match r.comments with
  | none => .ok { r with comments := some [], files := some (r.files.getD []) }
  | some cs =>
      match jsArrayMap transformCommentUnbound cs with
      | .error e => .error e
      | .ok l => .ok { r with comments := some l, files := some (r.files.getD []) }

/-- `transformReview(data)` as it actually runs inside
`response.data.map(this.transformReview)` in `getReviews` (reviewService.ts
line 153) — unbound, `this` undefined: a review whose raw `comments` is
nullish transforms with `comments := []` and `files` defaulted, but a present
`comments` array (even an empty one) makes the callback evaluate
`this.transformComment` and throw. -/
def transformReviewUnbound (r : RawReview) : Except String RawReview :=
  match r.comments with
  | none => .ok { r with comments := some [], files := some (r.files.getD []) }
  | some _ => .error typeErrorUndefinedThis

/-- The transformation stage of `getReviews`:
`response.data.map(this.transformReview)` (reviewService.ts line 153). -/
def getReviewsTransform (raws : List RawReview) : Except String (List RawReview) :=
  jsArrayMap transformReviewUnbound raws

mutual

/-- The property the claim asserts of transformed comments: `reactions` is
present, `replies` is present, and every comment in `replies` recursively
satisfies the same. -/
def defaultedComment : RawComment → Bool
  | .mk _ _ none _ => false
  | .mk _ _ (some rs) reactions => reactions.isSome && defaultedCommentList rs

def defaultedCommentList : List RawComment → Bool
  | [] => true
  | c :: cs => defaultedComment c && defaultedCommentList cs

end

/-- The property the claim asserts of transformed reviews: `files` and
`comments` are present and every comment in the tree is defaulted. -/
def defaultedReview (r : RawReview) : Bool :=
  r.files.isSome &&
    match r.comments with
    | none => false
    | some cs => defaultedCommentList cs

end Transform

/-! Concrete data used by the closed witness / counterexample theorems. -/

/-- A trivial size estimate standing in for `estimateSize` (the source
measures the JSON serialization with `Blob`): every entry counts one byte. -/
def est1 {V : Type} : CacheManager.CacheEntry V → Nat := fun _ => 1

/-- A filter object `{ status: ["open"] }`. -/
def c1Filters : Filters := [("status", "[\"open\"]")]

/-- Scenario for the invalidation claim, over payloads `Nat` (`0` stands for
the pre-update review list, `1` for the post-update one, `10` and `11` for the
pre- and post-update single review): populate the list cache for `c1Filters` and
the single-review cache for `r1`, then run `updateReview r1`, then read
both again. -/
def c1AfterFirstList : CacheManager.CacheState Nat :=
  (ReviewService.getReviews est1 (CacheManager.initState Nat) (some c1Filters) 0 0).2.2

def c1AfterFirstGet : CacheManager.CacheState Nat :=
  (ReviewService.getReview est1 c1AfterFirstList "r1" 10 0).2.2

def c1AfterUpdate : CacheManager.CacheState Nat :=
  ReviewService.updateReview est1 c1AfterFirstGet "r1"

def c1SecondList : Nat × Bool × CacheManager.CacheState Nat :=
  ReviewService.getReviews est1 c1AfterUpdate (some c1Filters) 1 1

def c1SecondGet : Nat × Bool × CacheManager.CacheState Nat :=
  ReviewService.getReview est1 c1AfterUpdate "r1" 11 1

/-- The two order-variants of the same filter object used by the
canonicalization claim: `{a:1, b:2}` and `{b:2, a:1}`. -/
def c2FiltersAB : Filters := [("a", "1"), ("b", "2")]

def c2FiltersBA : Filters := [("b", "2"), ("a", "1")]

/-- Raw API data for the transform witnesses: a review with both collections
absent (as `getReviews` can actually return), and a review with one shallow
comment (no `replies` array) plus a file, as `getReview` can actually
return. -/
def demoRawShallowComment : Transform.RawComment :=
  .mk "c1" "hello" none none

def demoRawListReview : Transform.RawReview :=
  { id := "r1", title := "list item", comments := none, files := none }

def demoRawListReviewOut : Transform.RawReview :=
  { id := "r1", title := "list item", comments := some [], files := some [] }

def demoRawDetailReview : Transform.RawReview :=
  { id := "r2", title := "detail", comments := some [demoRawShallowComment]
    files := some ["f.ts"] }

def demoRawDetailReviewOut : Transform.RawReview :=
  { id := "r2", title := "detail"
    comments := some [.mk "c1" "hello" (some []) (some [])]
    files := some ["f.ts"] }

/-- Cache state right after `set("k", 7, ttl 5)` at time 0, durable layer
available. -/
def c4State : CacheManager.CacheState Nat :=
  CacheManager.set est1 (CacheManager.initState Nat) "k" 7 (some 5) none 0

/-- Comment forest for the structural-sharing claim: a sibling `sib` (which
has a reply `leaf`) next to the update target `tgt`. -/
def demoLeaf : Comment := Comment.mk "leaf" "a leaf reply" false []

def demoSib : Comment := Comment.mk "sib" "sibling with replies" false [demoLeaf]

def demoTgt : Comment := Comment.mk "tgt" "target" false []

def demoComments : List Comment := [demoSib, demoTgt]

/-- The updated comment the server returns for `tgt`. -/
def demoTgtUpdated : Comment := Comment.mk "tgt" "target, edited" true []

/-- Reviews for the reconciliation-divergence scenario. -/
def demoR1 : Review := { id := "R1", title := "r1", updatedAt := 1, files := [], comments := [] }

def demoR2 : Review := { id := "R2", title := "r2", updatedAt := 2, files := [], comments := [] }

def demoR3 : Review := { id := "R3", title := "r3", updatedAt := 3, files := [], comments := [] }

/-- A concrete store state used by witnesses: two reviews, a selection, a
filter, and bookkeeping fields. -/
def demoStore : ReviewStore.StoreState :=
  { reviews := [demoR1, demoR2]
    selectedReview := some demoR1
    filters := [("status", "[\"open\"]")]
    loading := false
    error := none
    lastFetchTime := some 41
    cacheVersion := 7 }

/-- An idle deduplication state: empty queue, no network calls yet. -/
def emptyDedup : ReviewService.DedupState :=
  { requestQueue := [], networkCalls := 0, nextPromiseId := 0 }

/-!
## Helper lemmas
-/

theorem lookupKey_putKey_self {V : Type} (l : List (String × V)) (k : String) (v : V) :
    lookupKey (putKey l k v) k = some v := by
  simp [lookupKey, putKey, List.find?]

theorem lookupKey_eraseKey_self {V : Type} (l : List (String × V)) (k : String) :
    lookupKey (eraseKey l k) k = none := by
  induction l with
  | nil => rfl
  | cons e es ih =>
      by_cases h : e.1 == k
      · simp only [eraseKey, List.filter_cons, h] at ih ⊢
        simp [ih]
      · simp only [eraseKey, List.filter_cons, h] at ih ⊢
        simp only [lookupKey, List.find?, h] at ih ⊢
        simp [ih]

/-- The synchronous `get` never touches the durable layer. -/
theorem CacheManager.get_db_eq {V : Type} (est : CacheManager.CacheEntry V → Nat)
    (s : CacheManager.CacheState V) (key : String) (now : Nat) :
    (CacheManager.get est s key now).2.db = s.db := by
  unfold CacheManager.get
  cases lookupKey s.memoryCache key with
  | none => rfl
  | some entry =>
      dsimp only
      split <;> rfl

/-- After `set`, the memory layer maps the key to the freshly built entry
(whatever eviction happened first). -/
theorem CacheManager.set_lookup_self {V : Type} (est : CacheManager.CacheEntry V → Nat)
    (s : CacheManager.CacheState V) (key : String) (v : V) (ttl? ver? : Option Nat)
    (now : Nat) :
    lookupKey (CacheManager.set est s key v ttl? ver? now).memoryCache key =
      some { data := v, timestamp := now, expiresAt := now + ttl?.getD CacheManager.defaultTTL
             version := ver?.getD 1 } := by
  unfold CacheManager.set
  dsimp only
  cases lookupKey s.memoryCache key <;>
    · dsimp only
      split <;> split <;> simp [lookupKey_putKey_self]

/-!
## Claim theorems
-/

/-- C1: the claim says `updateReview` invalidates every cached list entry
across all filter variants, so that a later `getReviews` with any previously
cached filter misses the cache.  The code deletes only `review:${id}` and the
literal key `reviews:{}`: in the scenario, the list cached for the filter
`{status:["open"]}` survives `updateReview`, and the second `getReviews` with
that filter returns the stale pre-update value `0` without a network fetch
(`didFetch = false`), while — as the claim also says — `review:r1` is gone and
`getReview` does re-fetch. -/
theorem updateReview_leaves_filtered_list_key_cached :
    c1SecondList.1 = 0 ∧ c1SecondList.2.1 = false ∧
    lookupKey c1AfterUpdate.memoryCache (ReviewService.reviewCacheKey "r1") = none ∧
    c1SecondGet.2.1 = true := by decide

/-- C2: the claim says the list-read cache key is invariant under property
insertion order.  The key is `reviews:${JSON.stringify(filters)}` and
`JSON.stringify` follows insertion order, so the two permuted variants of
`{a:1, b:2}` — equal as sets of key/value pairs — get different cache keys.
The interceptor-level `getCacheKey` suffers the same way at any truthy url —
instantiated here at `/paginated`, the url under which `getReviewsPaginated`
sends params — while at a missing or empty (falsy) url it returns no key at
all for either variant, as the `if (!config.url) return null` guard
dictates. -/
theorem cacheKey_sensitive_to_property_order :
    c2FiltersAB.Perm c2FiltersBA ∧
    ReviewService.reviewsListCacheKey (some c2FiltersAB) ≠
      ReviewService.reviewsListCacheKey (some c2FiltersBA) ∧
    ReviewService.getCacheKey "get" (some "/paginated") (some c2FiltersAB) ≠
      ReviewService.getCacheKey "get" (some "/paginated") (some c2FiltersBA) ∧
    ReviewService.getCacheKey "get" (some "") (some c2FiltersAB) = none ∧
    ReviewService.getCacheKey "get" none (some c2FiltersAB) = none := by
  refine ⟨List.Perm.swap _ _ _, by decide, by decide, by decide, by decide⟩

/-- C3: the claim says a request that always fails with 503 is attempted
exactly `1 + maxRetries = 4` times before a `SERVICE_UNAVAILABLE` error
surfaces.  Because `retryRequest` sets `_retry` before re-issuing and
`shouldRetry` refuses any config carrying `_retry`, the chain makes exactly 2
attempts (one retry, after a single 1000ms backoff) and then surfaces
`SERVICE_UNAVAILABLE`; the `retryCount >= maxRetries` cap is unreachable. -/
theorem retry_chain_makes_exactly_two_attempts :
    ReviewService.runAlwaysFailing 503 10 ReviewService.freshConfig 0 [] =
      some (2, ReviewService.RequestOutcome.handled "SERVICE_UNAVAILABLE", [1000]) ∧
    2 ≠ 1 + ReviewService.maxRetries := by decide

/-- C6: the claim says one reconciliation tick detects any same-length,
different-content divergence by comparing content, never length alone.  The
tick compares exactly `store.reviews.length !== context.reviews.length`: for
`[R1,R2]` versus `[R1,R3]` (equal length, different ids) it triggers no fetch
although the contents differ. -/
theorem syncTick_misses_equal_length_divergence :
    ReviewSync.syncTickTriggersFetch [demoR1, demoR2] [demoR1, demoR3] = false ∧
    ReviewSync.sameContent [demoR1, demoR2] [demoR1, demoR3] = false := by decide

/-- C4 counterexample: the claim says that more than `ttl` after `set`, `get`
returns absent and the entry is removed from both the memory and the durable
layer.  At time 6, for an entry set at time 0 with ttl 5, `get` returns absent
and removes the memory entry, but the durable-layer record is still there. -/
theorem get_expiry_leaves_durable_entry :
    (CacheManager.get est1 c4State "k" 6).1 = none ∧
    lookupKey (CacheManager.get est1 c4State "k" 6).2.memoryCache "k" = none ∧
    lookupKey (CacheManager.get est1 c4State "k" 6).2.db "k" ≠ none := by decide

/-- C4 (amended): for every `ttl > 0`, `set(k, v, ttl)` then `get(k)`
immediately returns `v`; at any time more than `ttl` after the set, `get(k)`
returns absent and removes the entry from the memory layer — while leaving the
durable layer exactly as `set` left it (durable-layer eviction is done by
`getAsync` or the periodic cleanup, not by the synchronous `get`). -/
theorem set_get_ttl_behaviour {V : Type} (est : CacheManager.CacheEntry V → Nat)
    (s : CacheManager.CacheState V) (k : String) (v : V) (ttl now later : Nat)
    (httl : 0 < ttl) (hlater : now + ttl < later) :
    (CacheManager.get est (CacheManager.set est s k v (some ttl) none now) k now).1 =
      some v ∧
    (CacheManager.get est (CacheManager.set est s k v (some ttl) none now) k later).1 =
      none ∧
    lookupKey
      (CacheManager.get est (CacheManager.set est s k v (some ttl) none now) k
        later).2.memoryCache k = none ∧
    (CacheManager.get est (CacheManager.set est s k v (some ttl) none now) k later).2.db =
      (CacheManager.set est s k v (some ttl) none now).db := by
  have hset := CacheManager.set_lookup_self est s k v (some ttl) none now
  have hnotyet : ¬ now > now + ttl := by omega
  have hpast : later > now + ttl := hlater
  refine ⟨?_, ?_, ?_, CacheManager.get_db_eq est _ k later⟩
  · unfold CacheManager.get
    rw [hset]
    simp [hnotyet]
  · unfold CacheManager.get
    rw [hset]
    simp [hpast]
  · unfold CacheManager.get
    rw [hset]
    simp [hpast, lookupKey_eraseKey_self]

/-- C4 witness: the amended theorem applied at ttl 5, set time 0, read time 6,
on the initial cache. -/
theorem set_get_ttl_behaviour_witness :
    0 < 5 ∧ 0 + 5 < 6 ∧
    ((CacheManager.get est1
        (CacheManager.set est1 (CacheManager.initState Nat) "k" 7 (some 5) none 0) "k"
        0).1 = some 7 ∧
      (CacheManager.get est1
          (CacheManager.set est1 (CacheManager.initState Nat) "k" 7 (some 5) none 0) "k"
          6).1 = none ∧
      lookupKey
        (CacheManager.get est1
            (CacheManager.set est1 (CacheManager.initState Nat) "k" 7 (some 5) none 0)
            "k" 6).2.memoryCache "k" = none ∧
      (CacheManager.get est1
            (CacheManager.set est1 (CacheManager.initState Nat) "k" 7 (some 5) none 0)
            "k" 6).2.db =
        (CacheManager.set est1 (CacheManager.initState Nat) "k" 7 (some 5) none 0).db) :=
  ⟨by decide, by decide,
    set_get_ttl_behaviour est1 (CacheManager.initState Nat) "k" 7 5 0 6 (by decide)
      (by decide)⟩

/-- C5: a second `requestWithDeduplication` call with the same key while the
first is pending returns the very promise stored by the first call (hence both
callers receive the same settled result), leaves the state untouched, exactly
one network request has been made, and once the shared promise settles —
fulfilled or rejected — the queue entry for the key is gone. -/
theorem requestWithDeduplication_dedups (s : ReviewService.DedupState) (key : String)
    (h : lookupKey s.requestQueue key = none) :
    (ReviewService.requestWithDeduplication
        (ReviewService.requestWithDeduplication s key).2 key).1 =
      (ReviewService.requestWithDeduplication s key).1 ∧
    (ReviewService.requestWithDeduplication
        (ReviewService.requestWithDeduplication s key).2 key).2 =
      (ReviewService.requestWithDeduplication s key).2 ∧
    (ReviewService.requestWithDeduplication s key).2.networkCalls =
      s.networkCalls + 1 ∧
    ∀ success,
      lookupKey
        (ReviewService.settle (ReviewService.requestWithDeduplication s key).2 key
            success).requestQueue key = none := by
  unfold ReviewService.requestWithDeduplication ReviewService.settle
  rw [h]
  dsimp only
  rw [lookupKey_putKey_self]
  exact ⟨rfl, rfl, rfl, fun _ => lookupKey_eraseKey_self _ _⟩

/-- C5 witness: the deduplication theorem applied to the idle state and the
key "k", with the settled-promise cleanup instantiated at both a fulfilled and
a rejected settlement. -/
theorem requestWithDeduplication_dedups_witness :
    lookupKey emptyDedup.requestQueue "k" = none ∧
    (ReviewService.requestWithDeduplication
        (ReviewService.requestWithDeduplication emptyDedup "k").2 "k").1 =
      (ReviewService.requestWithDeduplication emptyDedup "k").1 ∧
    (ReviewService.requestWithDeduplication emptyDedup "k").2.networkCalls =
      emptyDedup.networkCalls + 1 ∧
    lookupKey
      (ReviewService.settle (ReviewService.requestWithDeduplication emptyDedup "k").2
          "k" true).requestQueue "k" = none ∧
    lookupKey
      (ReviewService.settle (ReviewService.requestWithDeduplication emptyDedup "k").2
          "k" false).requestQueue "k" = none :=
  ⟨rfl, (requestWithDeduplication_dedups emptyDedup "k" rfl).1,
    (requestWithDeduplication_dedups emptyDedup "k" rfl).2.2.1,
    (requestWithDeduplication_dedups emptyDedup "k" rfl).2.2.2 true,
    (requestWithDeduplication_dedups emptyDedup "k" rfl).2.2.2 false⟩

/-- C7: when the awaited service call fails, each of `fetchReviews`,
`fetchReview` and `updateReview` sets the error field (with its action-specific
code) and leaves `reviews`, `selectedReview` and `filters` exactly as they
were.  For the two fetch actions the hypothesis pins the path on which the
network call actually runs (a forced fetch or a cache miss). -/
theorem store_failure_preserves_prior_data (s : ReviewStore.StoreState)
    (m id : String) (cachedL : Option (List Review)) (cachedR : Option Review)
    (force fre : Bool) (now : Nat)
    (hL : force = true ∨ cachedL = none) (hR : force = true ∨ cachedR = none) :
    ((ReviewStore.fetchReviews s cachedL force (.err m) fre now).reviews = s.reviews ∧
      (ReviewStore.fetchReviews s cachedL force (.err m) fre now).selectedReview =
        s.selectedReview ∧
      (ReviewStore.fetchReviews s cachedL force (.err m) fre now).filters = s.filters ∧
      (ReviewStore.fetchReviews s cachedL force (.err m) fre now).error =
        some { code := "FETCH_REVIEWS_ERROR", message := m }) ∧
    ((ReviewStore.fetchReview s cachedR force (.err m)).2.reviews = s.reviews ∧
      (ReviewStore.fetchReview s cachedR force (.err m)).2.selectedReview =
        s.selectedReview ∧
      (ReviewStore.fetchReview s cachedR force (.err m)).2.filters = s.filters ∧
      (ReviewStore.fetchReview s cachedR force (.err m)).2.error =
        some { code := "FETCH_REVIEW_ERROR", message := m }) ∧
    ((ReviewStore.updateReview s id (.err m)).reviews = s.reviews ∧
      (ReviewStore.updateReview s id (.err m)).selectedReview = s.selectedReview ∧
      (ReviewStore.updateReview s id (.err m)).filters = s.filters ∧
      (ReviewStore.updateReview s id (.err m)).error =
        some { code := "UPDATE_REVIEW_ERROR", message := m }) := by
  have hcondL : ¬ (force = false ∧ cachedL.isSome) := by
    rcases hL with h | h <;> simp [h]
  have hcondR : ¬ (force = false ∧ cachedR.isSome) := by
    rcases hR with h | h <;> simp [h]
  unfold ReviewStore.fetchReviews ReviewStore.fetchReview ReviewStore.updateReview
  rw [if_neg hcondL, if_neg hcondR]
  simp

/-- C7 witness: the preservation theorem applied to the concrete store state
with a forced fetch (so the service call certainly runs). -/
theorem store_failure_preserves_prior_data_witness :
    (true = true ∨ (none : Option (List Review)) = none) ∧
    ((ReviewStore.fetchReviews demoStore none true (.err "boom") true 99).reviews =
        demoStore.reviews ∧
      (ReviewStore.fetchReviews demoStore none true (.err "boom") true 99).filters =
        demoStore.filters ∧
      (ReviewStore.fetchReview demoStore none true (.err "boom")).2.selectedReview =
        demoStore.selectedReview ∧
      (ReviewStore.updateReview demoStore "R1" (.err "boom")).reviews =
        demoStore.reviews ∧
      (ReviewStore.updateReview demoStore "R1" (.err "boom")).error =
        some { code := "UPDATE_REVIEW_ERROR", message := "boom" }) :=
  ⟨Or.inl rfl,
    (store_failure_preserves_prior_data demoStore "boom" "R1" none none true true 99
        (Or.inl rfl) (Or.inl rfl)).1.1,
    (store_failure_preserves_prior_data demoStore "boom" "R1" none none true true 99
        (Or.inl rfl) (Or.inl rfl)).1.2.2.1,
    (store_failure_preserves_prior_data demoStore "boom" "R1" none none true true 99
        (Or.inl rfl) (Or.inl rfl)).2.1.2.1,
    (store_failure_preserves_prior_data demoStore "boom" "R1" none none true true 99
        (Or.inl rfl) (Or.inl rfl)).2.2.1,
    (store_failure_preserves_prior_data demoStore "boom" "R1" none none true true 99
        (Or.inl rfl) (Or.inl rfl)).2.2.2.2.2⟩

/-- C9: `addComment` and `updateComment` (success-path updaters) keep the
`filters`, `cacheVersion` and `lastFetchTime` fields unchanged, keep the
review list the same length, and leave every review whose id differs from the
target as the identical element at its position. -/
theorem addComment_updateComment_frame (s : ReviewStore.StoreState)
    (rid cid : String) (c uc : Comment) :
    ((ReviewStore.applyAddComment s rid c).filters = s.filters ∧
      (ReviewStore.applyAddComment s rid c).cacheVersion = s.cacheVersion ∧
      (ReviewStore.applyAddComment s rid c).lastFetchTime = s.lastFetchTime ∧
      (ReviewStore.applyAddComment s rid c).reviews.length = s.reviews.length ∧
      ∀ (i : Nat) (r0 : Review), s.reviews[i]? = some r0 → r0.id ≠ rid →
        (ReviewStore.applyAddComment s rid c).reviews[i]? = some r0) ∧
    ((ReviewStore.applyUpdateCommentStore s rid cid uc).filters = s.filters ∧
      (ReviewStore.applyUpdateCommentStore s rid cid uc).cacheVersion = s.cacheVersion ∧
      (ReviewStore.applyUpdateCommentStore s rid cid uc).lastFetchTime =
        s.lastFetchTime ∧
      (ReviewStore.applyUpdateCommentStore s rid cid uc).reviews.length =
        s.reviews.length ∧
      ∀ (i : Nat) (r0 : Review), s.reviews[i]? = some r0 → r0.id ≠ rid →
        (ReviewStore.applyUpdateCommentStore s rid cid uc).reviews[i]? = some r0) := by
  constructor
  · unfold ReviewStore.applyAddComment
    cases hf : s.reviews.find? (fun r => r.id == rid) with
    | none => exact ⟨rfl, rfl, rfl, rfl, fun i r0 h1 _ => h1⟩
    | some ur =>
        refine ⟨rfl, rfl, rfl, by simp, ?_⟩
        intro i r0 h1 h2
        rw [List.getElem?_map, h1]
        simp [h2]
  · unfold ReviewStore.applyUpdateCommentStore
    cases hf : s.reviews.find? (fun r => r.id == rid) with
    | none => exact ⟨rfl, rfl, rfl, rfl, fun i r0 h1 _ => h1⟩
    | some ur =>
        refine ⟨rfl, rfl, rfl, by simp, ?_⟩
        intro i r0 h1 h2
        rw [List.getElem?_map, h1]
        simp [h2]

/-- C9 witness: the frame theorem applied to the concrete store, adding a
comment to `R2` and editing a comment of `R2`; `R1` (position 0) has a
different id and is untouched. -/
theorem addComment_updateComment_frame_witness :
    demoStore.reviews[0]? = some demoR1 ∧ demoR1.id ≠ "R2" ∧
    (ReviewStore.applyAddComment demoStore "R2" demoTgt).filters = demoStore.filters ∧
    (ReviewStore.applyAddComment demoStore "R2" demoTgt).reviews[0]? = some demoR1 ∧
    (ReviewStore.applyUpdateCommentStore demoStore "R2" "tgt"
        demoTgtUpdated).cacheVersion = demoStore.cacheVersion ∧
    (ReviewStore.applyUpdateCommentStore demoStore "R2" "tgt"
        demoTgtUpdated).reviews[0]? = some demoR1 :=
  ⟨rfl, by decide,
    (addComment_updateComment_frame demoStore "R2" "tgt" demoTgt demoTgtUpdated).1.1,
    (addComment_updateComment_frame demoStore "R2" "tgt" demoTgt demoTgtUpdated).1.2.2.2.2
      0 demoR1 rfl (by decide),
    (addComment_updateComment_frame demoStore "R2" "tgt" demoTgt
        demoTgtUpdated).2.2.1,
    (addComment_updateComment_frame demoStore "R2" "tgt" demoTgt demoTgtUpdated).2.2.2.2.2
      0 demoR1 rfl (by decide)⟩

/-- The instrumented traversal produces exactly the tree `updateComments`
produces. -/
theorem updateCommentsTraced_fst (commentId : String) (upd : Comment) :
    (cs : List Comment) →
      (updateCommentsTraced commentId upd cs).1 = updateComments commentId upd cs
  | [] => by simp [updateCommentsTraced, updateComments]
  | c :: cs => by
      have h2 := updateCommentsTraced_fst commentId upd cs
      have h1 := updateCommentsTraced_fst commentId upd c.replies
      simp only [updateCommentsTraced, updateComments]
      rcases hrest : updateCommentsTraced commentId upd cs with ⟨restList, restIds⟩
      rcases hinner : updateCommentsTraced commentId upd c.replies with ⟨innerList, innerIds⟩
      rw [hrest] at h2
      rw [hinner] at h1
      dsimp only at h1 h2
      by_cases hid : c.id == commentId
      · simp [hid, h2]
      · by_cases hlen : c.replies.length > 0
        · simp [hid, hlen, h1, h2]
        · simp [hid, hlen, h2]
decreasing_by
  all_goals cases c
  all_goals simp [Comment.replies]
  all_goals omega

/-- The freshly allocated nodes of an `updateComments` run are exactly the
visited nodes that either are the target or carry a non-empty reply list;
every other visited node is passed through as the same object. -/
theorem updateCommentsTraced_snd (commentId : String) (upd : Comment) :
    (cs : List Comment) →
      (updateCommentsTraced commentId upd cs).2 =
        ((visitedComments commentId cs).filter
            (fun c => c.id == commentId || !c.replies.isEmpty)).map Comment.id
  | [] => by simp [updateCommentsTraced, visitedComments]
  | c :: cs => by
      have h2 := updateCommentsTraced_snd commentId upd cs
      have h1 := updateCommentsTraced_snd commentId upd c.replies
      simp only [updateCommentsTraced, visitedComments]
      rcases hrest : updateCommentsTraced commentId upd cs with ⟨restList, restIds⟩
      rcases hinner : updateCommentsTraced commentId upd c.replies with ⟨innerList, innerIds⟩
      rw [hrest] at h2
      rw [hinner] at h1
      dsimp only at h1 h2
      by_cases hid : c.id == commentId
      · simp [hid, h2]
      · cases hrep : c.replies with
        | nil =>
            simp [hid, hrep, visitedComments, h2]
        | cons r rs =>
            simp [hid, hrep, h1, h2, List.filter_append, List.map_append]
decreasing_by
  all_goals cases c
  all_goals simp [Comment.replies]
  all_goals omega

/-- C8 (amended): the store and context `updateComment` keep the `files`
array of the review by reference and only rewrite the comment forest with
`updateComments`; within the forest, the nodes rebuilt as fresh objects are
exactly the target comment plus every visited comment with a non-empty reply
list — whether or not it lies on the path to the target — while every other
visited comment (in particular every reply-less sibling) is kept as the
identical object. -/
theorem updateComment_structural_sharing (r : Review) (commentId : String)
    (upd : Comment) (cs : List Comment) :
    (applyUpdateComment r commentId upd).files = r.files ∧
    (applyUpdateComment r commentId upd).comments =
      updateComments commentId upd r.comments ∧
    (updateCommentsTraced commentId upd cs).1 = updateComments commentId upd cs ∧
    rebuiltIds commentId upd cs =
      ((visitedComments commentId cs).filter
          (fun c => c.id == commentId || !c.replies.isEmpty)).map Comment.id :=
  ⟨rfl, rfl, updateCommentsTraced_fst commentId upd cs,
    updateCommentsTraced_snd commentId upd cs⟩

/-- C8 counterexample: the claim says every comment subtree off the
root-to-target path is kept referentially identical.  In the forest
`[sib (with reply leaf), tgt]`, updating `tgt` rebuilds the off-path sibling
`sib` (it has a non-empty reply list, so the source allocates
`{ ...c, replies: updateComments(c.replies) }` for it): the trace of freshly
allocated nodes (`rebuiltIds`, spelled here as the second component of
`updateCommentsTraced`) is `["sib", "tgt"]`, while the root-to-target path is
just `["tgt"]` — `sib` is rebuilt although it is not on the path. -/
theorem updateComment_rebuilds_offpath_sibling :
    containsComment "tgt" demoComments = true ∧
    (updateCommentsTraced "tgt" demoTgtUpdated demoComments).2 = ["sib", "tgt"] ∧
    pathToComment "tgt" demoComments = ["tgt"] ∧
    "sib" ∈ (["sib", "tgt"] : List String) ∧
    "sib" ∉ (["tgt"] : List String) := by
  refine ⟨?_, ?_, ?_, by decide, by decide⟩
  · simp [containsComment, demoComments, demoSib, demoTgt, demoLeaf, Comment.id,
      Comment.replies]
  · simp [updateCommentsTraced, demoComments, demoSib, demoTgt, demoLeaf,
      demoTgtUpdated, Comment.id, Comment.replies]
  · simp [pathToComment, containsComment, demoComments, demoSib, demoTgt, demoLeaf,
      Comment.id, Comment.replies]

/-- A comment that `transformCommentUnbound` actually returns (rather than
throwing on) is fully defaulted. -/
theorem defaultedComment_of_transformCommentUnbound (c c2 : Transform.RawComment)
    (h : Transform.transformCommentUnbound c = Except.ok c2) :
    Transform.defaultedComment c2 = true := by
  cases c with
  | mk i co replies reactions =>
      cases replies with
      | none =>
          simp only [Transform.transformCommentUnbound, Except.ok.injEq] at h
          simp [← h, Transform.defaultedComment, Transform.defaultedCommentList]
      | some rs => simp [Transform.transformCommentUnbound] at h

/-- A comment list that the unbound-callback map actually returns is fully
defaulted. -/
theorem defaultedCommentList_of_jsArrayMap :
    ∀ (cs l : List Transform.RawComment),
      Transform.jsArrayMap Transform.transformCommentUnbound cs = Except.ok l →
      Transform.defaultedCommentList l = true
  | [], l, h => by
      simp only [Transform.jsArrayMap, Except.ok.injEq] at h
      simp [← h, Transform.defaultedCommentList]
  | c :: cs, l, h => by
      simp only [Transform.jsArrayMap] at h
      cases hc : Transform.transformCommentUnbound c with
      | error e => rw [hc] at h; simp at h
      | ok c2 =>
          rw [hc] at h
          cases hrest : Transform.jsArrayMap Transform.transformCommentUnbound cs with
          | error e => rw [hrest] at h; simp at h
          | ok l2 =>
              rw [hrest] at h
              simp only [Except.ok.injEq] at h
              simp [← h, Transform.defaultedCommentList,
                defaultedComment_of_transformCommentUnbound c c2 hc,
                defaultedCommentList_of_jsArrayMap cs l2 hrest]

/-- A review that the bound `transformReview` actually returns is fully
defaulted. -/
theorem defaultedReview_of_transformReview (r result : Transform.RawReview)
    (h : Transform.transformReview r = Except.ok result) :
    Transform.defaultedReview result = true := by
  cases hr : r.comments with
  | none =>
      simp only [Transform.transformReview, hr, Except.ok.injEq] at h
      simp [← h, Transform.defaultedReview, Transform.defaultedCommentList]
  | some cs =>
      simp only [Transform.transformReview, hr] at h
      cases hmap : Transform.jsArrayMap Transform.transformCommentUnbound cs with
      | error e => rw [hmap] at h; simp at h
      | ok l =>
          rw [hmap] at h
          simp only [Except.ok.injEq] at h
          simp [← h, Transform.defaultedReview,
            defaultedCommentList_of_jsArrayMap cs l hmap]

/-- A review that the unbound `transformReview` callback actually returns
(its raw `comments` was nullish) is fully defaulted. -/
theorem defaultedReview_of_transformReviewUnbound (r result : Transform.RawReview)
    (h : Transform.transformReviewUnbound r = Except.ok result) :
    Transform.defaultedReview result = true := by
  cases hr : r.comments with
  | none =>
      simp only [Transform.transformReviewUnbound, hr, Except.ok.injEq] at h
      simp [← h, Transform.defaultedReview, Transform.defaultedCommentList]
  | some cs => simp [Transform.transformReviewUnbound, hr] at h

/-- Every review list that the `getReviews` transformation stage actually
returns consists of fully defaulted reviews. -/
theorem all_defaultedReview_of_getReviewsTransform :
    ∀ (raws result : List Transform.RawReview),
      Transform.getReviewsTransform raws = Except.ok result →
      (result.all (fun x => Transform.defaultedReview x)) = true
  | [], result, h => by
      simp only [Transform.getReviewsTransform, Transform.jsArrayMap,
        Except.ok.injEq] at h
      simp [← h]
  | r :: raws, result, h => by
      simp only [Transform.getReviewsTransform, Transform.jsArrayMap] at h
      cases hr : Transform.transformReviewUnbound r with
      | error e => rw [hr] at h; simp at h
      | ok r2 =>
          rw [hr] at h
          cases hrest : Transform.jsArrayMap Transform.transformReviewUnbound raws with
          | error e => rw [hrest] at h; simp at h
          | ok l2 =>
              rw [hrest] at h
              simp only [Except.ok.injEq] at h
              have htail : Transform.getReviewsTransform raws = Except.ok l2 := hrest
              simp [← h, defaultedReview_of_transformReviewUnbound r r2 hr,
                all_defaultedReview_of_getReviewsTransform raws l2 htail]

/-- C10: every review that `getReviews` or `getReview` actually returns has
its `files` and `comments` collections present, and every comment at any
nesting depth in it has its `replies` and `reactions` collections present:
absent optional collections are defaulted to `[]`, never left undefined at
the public interface.  The model keeps the unbound-`this` behaviour of the
source: a raw review whose `comments` array is present makes the `getReviews`
map callback throw a TypeError instead of returning, and a raw comment whose
`replies` array is present does the same inside `getReview`, so those inputs
produce no review at all — every survivor is defaulted. -/
theorem transformReview_defaults_collections :
    (∀ (raws result : List Transform.RawReview),
        Transform.getReviewsTransform raws = Except.ok result →
        (result.all (fun x => Transform.defaultedReview x)) = true) ∧
    (∀ (r result : Transform.RawReview),
        Transform.transformReview r = Except.ok result →
        Transform.defaultedReview result = true) :=
  ⟨fun raws result h => all_defaultedReview_of_getReviewsTransform raws result h,
   fun r result h => defaultedReview_of_transformReview r result h⟩

/-- C10 witness: the defaulting theorem applied to a list response whose
review omits both collections, and to a detail response carrying one shallow
comment; both transforms succeed and the results are defaulted. -/
theorem transformReview_defaults_collections_witness :
    Transform.getReviewsTransform [demoRawListReview] =
      Except.ok [demoRawListReviewOut] ∧
    (([demoRawListReviewOut] : List Transform.RawReview).all
        (fun x => Transform.defaultedReview x)) = true ∧
    Transform.transformReview demoRawDetailReview =
      Except.ok demoRawDetailReviewOut ∧
    Transform.defaultedReview demoRawDetailReviewOut = true :=
  ⟨rfl,
    transformReview_defaults_collections.1 [demoRawListReview]
      [demoRawListReviewOut] rfl,
    rfl,
    transformReview_defaults_collections.2 demoRawDetailReview
      demoRawDetailReviewOut rfl⟩

end ReviewPlatform
